import Mathlib

/-!
Shallow embedding of the discordian core (Event Coordinator, MemoryStore,
Notification Manager, Identity Mapper, format helpers) and proofs of the
specification claims about it.

Time is modelled as `Int` nanoseconds (as in Go's `time.Time`/`time.Duration`);
`time.Now()` is passed explicitly as a `now : Int` argument.  Go maps are
modelled as association lists (`List (String × α)`); Go map iteration order is
the list order.  Fallible collaborator calls return `Option` results.
-/

namespace Discordian

/-- One nanosecond, the base unit of the time model. -/
def nanosecond : Int := 1

/-- `time.Second` in nanoseconds. -/
def second : Int := 1000000000

/-- `time.Minute` in nanoseconds. -/
def minute : Int := 60 * second

/-- `time.Hour` in nanoseconds. -/
def hour : Int := 60 * minute

/-- Association–list lookup, the model of a Go map read (`v, ok := m[k]`). -/
def lookupA {α : Type} : List (String × α) → String → Option α
  | [], _ => none
  | (k, v) :: rest, key => if k = key then some v else lookupA rest key

/-- Association–list insert/overwrite, the model of a Go map write (`m[k] = v`). -/
def insertA {α : Type} : List (String × α) → String → α → List (String × α)
  | [], key, v => [(key, v)]
  | (k, w) :: rest, key, v =>
      if k = key then (key, v) :: rest else (k, w) :: insertA rest key v

/-- Association–list delete, the model of Go `delete(m, k)`. -/
def deleteA {α : Type} : List (String × α) → String → List (String × α)
  | [], _ => []
  | (k, w) :: rest, key =>
      if k = key then deleteA rest key else (k, w) :: deleteA rest key

/-! ## format package (internal/format/message.go) -/

/-- Go's `PRState` is a string type; we keep it as `String`. -/
abbrev PRState := String

def stateDraft : PRState := "draft"
def stateTestsRunning : PRState := "tests_running"
def stateTestsBroken : PRState := "tests_broken"
def stateNeedsReview : PRState := "needs_review"
def stateChanges : PRState := "changes_requested"
def stateApproved : PRState := "approved"
def stateMerged : PRState := "merged"
def stateClosed : PRState := "closed"
def stateConflict : PRState := "conflict"
def stateUnknown : PRState := "unknown"

/-- `StateEmoji` from format: emoji for a PR state (Go `switch`). -/
def StateEmoji (state : PRState) : String :=
  if state = stateDraft then "📝"
  else if state = stateTestsRunning then "⏳"
  else if state = stateTestsBroken then "🔴"
  else if state = stateChanges then "🟠"
  else if state = stateApproved then "✅"
  else if state = stateMerged then "🚀"
  else if state = stateClosed then "❌"
  else if state = stateConflict then "⚠️"
  else if state = stateNeedsReview then "🟡"
  else if state = stateUnknown then "❓"
  else "❓"

/-- The workflow-state `switch` inside `StateFromAnalysis` (format package). -/
def workflowStateMap (workflowState : String) : PRState :=
  if workflowState = "IN_DRAFT" ∨ workflowState = "NEWLY_PUBLISHED" then stateDraft
  else if workflowState = "PUBLISHED_WAITING_FOR_TESTS" then stateTestsRunning
  else if workflowState = "TESTED_WAITING_FOR_FIXES" then stateTestsBroken
  else if workflowState = "REVIEWED_NEEDS_REFINEMENT" then stateChanges
  else if workflowState = "APPROVED_WAITING_FOR_MERGE" then stateApproved
  else if workflowState = "TESTED_WAITING_FOR_ASSIGNMENT" ∨
          workflowState = "ASSIGNED_WAITING_FOR_REVIEW" ∨
          workflowState = "REFINED_WAITING_FOR_APPROVAL" then stateNeedsReview
  else stateUnknown

/-- `StateFromAnalysis(merged, closed, draft, workflowState, checksFailing,
mergeConflict)` from format: derives the coarse PR state. -/
def StateFromAnalysis (merged isClosed isDraft : Bool) (workflowState : String)
    (checksFailing : Int) (mergeConflict : Bool) : PRState :=
  if merged then stateMerged
  else if isClosed then stateClosed
  else if isDraft then stateDraft
  else if mergeConflict then stateConflict
  else if checksFailing > 0 then stateTestsBroken
  else workflowStateMap workflowState

/-- `ActionLabel` from format: human-readable label for an action string. -/
def ActionLabel (action : String) : String :=
  if action = "review" then "needs to review"
  else if action = "re_review" then "needs to re-review"
  else if action = "approve" then "needs to approve"
  else if action = "resolve_comments" then "needs to resolve comments"
  else if action = "fix_tests" then "needs to fix tests"
  else if action = "fix_conflict" then "needs to fix merge conflict"
  else if action = "merge" then "ready to merge"
  else if action = "publish_draft" then "needs to publish draft"
  else if action = "request_reviewers" then "needs to request reviewers"
  else action

/-- `Truncate` from format (character-based here; byte = char on ASCII). -/
def Truncate (s : String) (maxLen : Nat) : String :=
  if s.length ≤ maxLen then s
  else if maxLen ≤ 3 then (s.toList.take maxLen).asString
  else (s.toList.take (maxLen - 3)).asString ++ "..."

/-- `ActionUser` from format. -/
structure ActionUser where
  username : String
  mention : String
  action : String
deriving DecidableEq, Repr

/-- `ChannelMessageParams` from format. -/
structure ChannelMessageParams where
  actionUsers : List ActionUser
  owner : String
  repo : String
  title : String
  author : String
  state : PRState
  prURL : String
  number : Nat
deriving DecidableEq, Repr

/-- `ChannelMessage` from format: text-channel notification body. -/
def ChannelMessage (p : ChannelMessageParams) : String :=
  let emoji := StateEmoji p.state
  let header := emoji ++ " [" ++ p.repo ++ "#" ++ toString p.number ++ "](" ++
      p.prURL ++ ") " ++ Truncate p.title 60 ++ " · " ++ p.author
  if p.actionUsers = [] then header
  else
    header ++ " → " ++ String.intercalate ", "
      (p.actionUsers.map fun au =>
        if au.action = "" then au.mention else au.mention ++ " " ++ au.action)

/-- `ForumThreadTitle` from format. -/
def ForumThreadTitle (repo : String) (number : Nat) (title : String) : String :=
  let pre := "[" ++ repo ++ "#" ++ toString number ++ "] "
  pre ++ Truncate title (100 - pre.length)

/-- `ForumThreadContent` from format (delegates to `ChannelMessage`). -/
def ForumThreadContent (p : ChannelMessageParams) : String :=
  ChannelMessage p

/-- `DMMessage` from format: DM notification body. -/
def DMMessage (p : ChannelMessageParams) (action : String) : String :=
  let emoji := StateEmoji p.state
  let actPart := if action = "" then "" else "**" ++ action ++ "**: "
  emoji ++ " " ++ actPart ++ "[" ++ p.owner ++ "/" ++ p.repo ++ "#" ++
    toString p.number ++ "](" ++ p.prURL ++ ") " ++ p.title ++ " by " ++ p.author

/-! ## state package: data types and MemoryStore (memory.go) -/

/-- `state.ThreadInfo`: chat-side representation of one PR in one channel. -/
structure ThreadInfo where
  threadID : String := ""
  messageID : String := ""
  channelID : String := ""
  channelType : String := ""
  lastState : String := ""
  messageText : String := ""
  updatedAt : Int := 0
deriving DecidableEq, Repr

/-- `state.DMInfo`: chat-side representation of one DM sent to one user. -/
structure DMInfo where
  channelID : String := ""
  messageID : String := ""
  messageText : String := ""
  sentAt : Int := 0
  lastState : String := ""
deriving DecidableEq, Repr

/-- `state.PendingDM`: a scheduled-but-not-yet-delivered DM. -/
structure PendingDM where
  id : String := ""
  userID : String := ""
  prURL : String := ""
  messageText : String := ""
  guildID : String := ""
  org : String := ""
  createdAt : Int := 0
  sendAt : Int := 0
  expiresAt : Int := 0
  retryCount : Int := 0
deriving DecidableEq, Repr

/-- `state.DailyReportInfo`. -/
structure DailyReportInfo where
  lastSentAt : Int := 0
  guildID : String := ""
deriving DecidableEq, Repr

/-- `state.UserMappingInfo`: a self-service identity mapping. -/
structure UserMappingInfo where
  gitHubUsername : String := ""
  discordUserID : String := ""
  guildID : String := ""
  createdAt : Int := 0
deriving DecidableEq, Repr

/-- `state.MemoryStore`: in-memory implementation of the Store contract.
Maps are association lists; `pendingDMs` keeps Go's `map[string]*PendingDM`
keyed by `dm.ID`. -/
structure MemoryStore where
  threads : List (String × ThreadInfo) := []
  dmInfo : List (String × DMInfo) := []
  dmUserIndex : List (String × List String) := []
  processed : List (String × Int) := []
  pendingDMs : List (String × PendingDM) := []
  dailyReports : List (String × DailyReportInfo) := []
  userMappings : List (String × UserMappingInfo) := []
  claims : List (String × Int) := []
  threadRetain : Int := 0
  dmRetain : Int := 0
  eventRetain : Int := 0
deriving DecidableEq, Repr

/-- `NewMemoryStore()`: fresh store with the fixed retention windows
(30 days for threads, 90 days for DM info, 24 hours for dedup markers). -/
def NewMemoryStore : MemoryStore :=
  { threadRetain := 30 * 24 * hour
    dmRetain := 90 * 24 * hour
    eventRetain := 24 * hour }

/-- `threadKey(owner, repo, number, channelID)` from memory.go. -/
def threadKey (owner repo : String) (number : Nat) (channelID : String) : String :=
  owner ++ "/" ++ repo ++ "#" ++ toString number ++ ":" ++ channelID

/-- `dmKey(userID, prURL)` from memory.go. -/
def dmKey (userID prURL : String) : String :=
  userID ++ ":" ++ prURL

/-- `userMappingKey(guildID, gitHubUsername)` from memory.go. -/
def userMappingKey (guildID gitHubUsername : String) : String :=
  guildID ++ ":" ++ gitHubUsername

namespace MemoryStore

/-- `MemoryStore.Thread`: `(info, found)` for a (PR, channel). -/
def thread (s : MemoryStore) (owner repo : String) (number : Nat)
    (channelID : String) : ThreadInfo × Bool :=
  match lookupA s.threads (threadKey owner repo number channelID) with
  | some info => (info, true)
  | none => ({}, false)

/-- `MemoryStore.SaveThread`: overwrite and stamp `UpdatedAt` with `now`. -/
def saveThread (s : MemoryStore) (owner repo : String) (number : Nat)
    (channelID : String) (info : ThreadInfo) (now : Int) : MemoryStore :=
  let info' := { info with updatedAt := now }
  { s with threads := insertA s.threads (threadKey owner repo number channelID) info' }

/-- `MemoryStore.ClaimThread`: under the store lock — if an unexpired claim
exists for the key, return `false`; otherwise record `now + ttl` as the
claim's expiry and return `true`.  Returns the result and the new store. -/
def claimThread (s : MemoryStore) (owner repo : String) (number : Nat)
    (channelID : String) (ttl now : Int) : Bool × MemoryStore :=
  let claimKey := "claim:thread:" ++ threadKey owner repo number channelID
  match lookupA s.claims claimKey with
  | some expiry =>
      if now < expiry then (false, s)
      else (true, { s with claims := insertA s.claims claimKey (now + ttl) })
  | none => (true, { s with claims := insertA s.claims claimKey (now + ttl) })

/-- `MemoryStore.DMInfo`: `(info, found)` for a (user, PR). -/
def getDMInfo (s : MemoryStore) (userID prURL : String) : DMInfo × Bool :=
  match lookupA s.dmInfo (dmKey userID prURL) with
  | some info => (info, true)
  | none => ({}, false)

/-- `MemoryStore.SaveDMInfo`: store DM info and update the reverse index. -/
def saveDMInfo (s : MemoryStore) (userID prURL : String) (info : DMInfo) :
    MemoryStore :=
  let users := (lookupA s.dmUserIndex prURL).getD []
  let users' := if userID ∈ users then users else users ++ [userID]
  { s with
    dmInfo := insertA s.dmInfo (dmKey userID prURL) info
    dmUserIndex := insertA s.dmUserIndex prURL users' }

/-- `MemoryStore.ClaimDM`: identical contract to `claimThread`, DM-scoped. -/
def claimDM (s : MemoryStore) (userID prURL : String) (ttl now : Int) :
    Bool × MemoryStore :=
  let claimKey := "claim:dm:" ++ dmKey userID prURL
  match lookupA s.claims claimKey with
  | some expiry =>
      if now < expiry then (false, s)
      else (true, { s with claims := insertA s.claims claimKey (now + ttl) })
  | none => (true, { s with claims := insertA s.claims claimKey (now + ttl) })

/-- `MemoryStore.WasProcessed`: found and not older than `eventRetain`. -/
def wasProcessed (s : MemoryStore) (eventKey : String) (now : Int) : Bool :=
  match lookupA s.processed eventKey with
  | none => false
  | some processedAt => !(now - processedAt > s.eventRetain)

/-- `MemoryStore.MarkProcessed`: records `now`; the `ttl` argument is
ignored (the Go parameter is `_ time.Duration`). -/
def markProcessed (s : MemoryStore) (eventKey : String) (ttl now : Int) :
    MemoryStore :=
  let _ := ttl
  { s with processed := insertA s.processed eventKey now }

/-- `MemoryStore.QueuePendingDM`: stamps `CreatedAt := now` and inserts the
entry keyed by its ID. -/
def queuePendingDM (s : MemoryStore) (dm : PendingDM) (now : Int) : MemoryStore :=
  let dm' := { dm with createdAt := now }
  { s with pendingDMs := insertA s.pendingDMs dm'.id dm' }

/-- `MemoryStore.PendingDMs(before)`: all entries with `SendAt ≤ before`
(`SendAt.Before(before) || SendAt.Equal(before)`); no expiry filtering. -/
def pendingDMsDue (s : MemoryStore) (before : Int) : List PendingDM :=
  (s.pendingDMs.map Prod.snd).filter fun dm => dm.sendAt ≤ before

/-- `MemoryStore.RemovePendingDM`. -/
def removePendingDM (s : MemoryStore) (id : String) : MemoryStore :=
  { s with pendingDMs := deleteA s.pendingDMs id }

/-- `MemoryStore.UserMapping`: `(info, found)` for a (guild, username). -/
def userMapping (s : MemoryStore) (guildID gitHubUsername : String) :
    UserMappingInfo × Bool :=
  match lookupA s.userMappings (userMappingKey guildID gitHubUsername) with
  | some info => (info, true)
  | none => ({}, false)

end MemoryStore

/-! ## usermapping package (usermapping.go) -/

/-- `cacheTTL`: mapper cache entries are valid for 24 hours. -/
def cacheTTL : Int := 24 * hour

/-- `cacheEntry`: a cached mapping with its creation timestamp. -/
structure CacheEntry where
  cachedAt : Int
  discordID : String
deriving DecidableEq, Repr

/-- `usermapping.Mapper`.  The `configLookup` and `discordLookup`
collaborators may be nil (`Option`); `store` is the Fido/state store tier. -/
structure Mapper where
  configLookup : Option (String → String → String)
  discordLookup : Option (String → String)
  store : Option MemoryStore
  guildID : String
  cache : List (String × CacheEntry)
  org : String

/-- `isAllDigits`: non-empty and every rune in `'0'..'9'`. -/
def isAllDigits (s : String) : Bool :=
  s ≠ "" && s.toList.all fun c => '0' ≤ c && c ≤ '9'

/-- `Mapper.cacheResult`: record a resolution in the cache, stamped `now`. -/
def cacheResult (m : Mapper) (githubUsername discordID : String) (now : Int) :
    Mapper :=
  { m with cache := insertA m.cache githubUsername ⟨now, discordID⟩ }

/-- The tier-1..4 lookup chain of `Mapper.DiscordID` (everything after the
cache check): explicit config (numeric snowflake used directly, otherwise
resolved via the Discord directory, failing soft), then stored self-service
mapping, then directory match on the source username, then `""`. -/
def discordIDTiers (m : Mapper) (githubUsername : String) (now : Int) :
    String × Mapper :=
  let tier1 : Option (String × Mapper) :=
    match m.configLookup with
    | none => none
    | some cl =>
        let configValue := cl m.org githubUsername
        if configValue = "" then none
        else if 17 ≤ configValue.length ∧ configValue.length ≤ 20 ∧
            isAllDigits configValue then
          some (configValue, cacheResult m githubUsername configValue now)
        else
          match m.discordLookup with
          | none => none
          | some dl =>
              let id := dl configValue
              if id ≠ "" then some (id, cacheResult m githubUsername id now)
              else none
  match tier1 with
  | some r => r
  | none =>
      let tier2 : Option (String × Mapper) :=
        match m.store with
        | none => none
        | some st =>
            if m.guildID ≠ "" then
              let (mapping, found) := st.userMapping m.guildID githubUsername
              if found then
                some (mapping.discordUserID,
                  cacheResult m githubUsername mapping.discordUserID now)
              else none
            else none
      match tier2 with
      | some r => r
      | none =>
          match m.discordLookup with
          | some dl =>
              let id := dl githubUsername
              if id ≠ "" then (id, cacheResult m githubUsername id now)
              else ("", m)
          | none => ("", m)

/-- `Mapper.DiscordID`: consult the cache first (entries younger than
`cacheTTL` win; an expired or missing entry falls through to the tiers). -/
def DiscordID (m : Mapper) (githubUsername : String) (now : Int) :
    String × Mapper :=
  match lookupA m.cache githubUsername with
  | some entry =>
      if now - entry.cachedAt < cacheTTL then (entry.discordID, m)
      else discordIDTiers m githubUsername now
  | none => discordIDTiers m githubUsername now

/-- `Mapper.Mention`: `<@id>` when resolved, the plain username otherwise. -/
def Mention (m : Mapper) (githubUsername : String) (now : Int) : String :=
  let (id, _) := DiscordID m githubUsername now
  if id ≠ "" then "<@" ++ id ++ ">" else githubUsername

/-! ## Side-effect trace

Calls to the chat platform and the config loader are recorded as effects;
store mutations are threaded through the `MemoryStore` value. -/

/-- One externally visible side effect of the Coordinator or the
Notification Manager. -/
inductive Effect where
  | reloadConfig
  | loadConfig
  | claimThread (claimKey : String) (ttl : Int)
  | postMessage (channelID text : String)
  | updateMessage (channelID messageID text : String)
  | postForumThread (channelID title content : String)
  | updateForumPost (threadID messageID title content : String)
  | archiveThread (threadID : String)
  | queueDM (dm : PendingDM)
  | sendDM (userID text : String)
deriving DecidableEq, Repr

/-- `True` iff the trace contains a DM delivery attempt (`SendDM` call). -/
def deliveryInvoked (effs : List Effect) : Bool :=
  effs.any fun e => match e with
    | .sendDM _ _ => true
    | _ => false

/-- `True` iff the trace contains a `ClaimThread` call. -/
def claimInvoked (effs : List Effect) : Bool :=
  effs.any fun e => match e with
    | .claimThread _ _ => true
    | _ => false

/-! ## notify package: Manager (manager.go as shipped) -/

/-- `minDMInterval`: minimum time between DMs to the same user. -/
def minDMInterval : Int := minute

/-- `notify.Manager` process-local state: registered guild senders and the
per-user last-DM timestamps.  (An absent `lastDMTime` key reads as Go's
zero time, which is never within `minDMInterval` of a realistic `now`.) -/
structure NotifyManager where
  dmSenders : List String
  lastDMTime : List (String × Int)
deriving DecidableEq, Repr

/-- Collaborator for the Manager: the result of `sender.SendDM(userID,
text)` — `(channelID, messageID)` on success, `none` on error. -/
structure NotifyEnv where
  sendDMResult : String → String → Option (String × String)

/-- `Manager.sendDM` as shipped: rate-limit check, sender lookup, delivery,
rate-limit bookkeeping and `SaveDMInfo` on success.  Returns the new manager
state, store, effect trace, and whether an error was returned.  Note: a
rate-limited or sender-less entry returns nil (no error) without sending,
and there is no expiry or retry-count check anywhere. -/
def sendDMStep (env : NotifyEnv) (m : NotifyManager) (s : MemoryStore)
    (dm : PendingDM) (now : Int) :
    NotifyManager × MemoryStore × List Effect × Bool :=
  let rateLimited : Bool :=
    match lookupA m.lastDMTime dm.userID with
    | some t => decide (now - t < minDMInterval)
    | none => false
  if rateLimited then (m, s, [], false)
  else if dm.guildID ∉ m.dmSenders then (m, s, [], false)
  else
    match env.sendDMResult dm.userID dm.messageText with
    | none => (m, s, [.sendDM dm.userID dm.messageText], true)
    | some (channelID, messageID) =>
        let m' := { m with lastDMTime := insertA m.lastDMTime dm.userID now }
        let info : DMInfo :=
          { channelID := channelID, messageID := messageID,
            messageText := dm.messageText, sentAt := now }
        let s' := s.saveDMInfo dm.userID dm.prURL info
        (m', s', [.sendDM dm.userID dm.messageText], false)

/-- `Manager.processPendingDMs` as shipped: fetch all entries due at `now`
(`Store.PendingDMs`), then for each — on `sendDM` error keep it in the queue
to retry later, otherwise remove it (`RemovePendingDM`). -/
def processPendingDMs (env : NotifyEnv) (m : NotifyManager) (s : MemoryStore)
    (now : Int) : NotifyManager × MemoryStore × List Effect :=
  let dms := s.pendingDMsDue now
  dms.foldl
    (fun acc dm =>
      let (m0, s0, effs) := acc
      let (m1, s1, effs1, isErr) := sendDMStep env m0 s0 dm now
      if isErr then (m1, s1, effs ++ effs1)
      else (m1, s1.removePendingDM dm.id, effs ++ effs1))
    (m, s, [])

/-! ## bot package: Coordinator (coordinator.go) -/

/-- `eventDeduplicationTTL`: idempotency TTL requested by the Coordinator. -/
def eventDeduplicationTTL : Int := hour

/-- A sprinkler event as consumed by `ProcessEvent`. -/
structure SprinklerEvent where
  url : String := ""
  eventType : String := ""
  deliveryID : String := ""
  timestamp : Int := 0
deriving DecidableEq, Repr

/-- The `PullRequest` part of a Turn `CheckResponse`. -/
structure PRInfo where
  title : String := ""
  author : String := ""
  merged : Bool := false
  closedPR : Bool := false
  draftPR : Bool := false
deriving DecidableEq, Repr

/-- The `Analysis` part of a Turn `CheckResponse`; `nextAction` is the
username → required-action map (map modelled as an association list). -/
structure Analysis where
  workflowState : String := ""
  checksFailing : Int := 0
  mergeConflict : Bool := false
  nextAction : List (String × String) := []
deriving DecidableEq, Repr

/-- A Turn API `CheckResponse`. -/
structure CheckResponse where
  pullRequest : PRInfo := {}
  analysis : Analysis := {}
deriving DecidableEq, Repr

/-- `FormatPRURL(owner, repo, number)`. -/
def FormatPRURL (owner repo : String) (number : Nat) : String :=
  "https://github.com/" ++ owner ++ "/" ++ repo ++ "/pull/" ++ toString number

/-- The Coordinator's collaborators (Discord client, config manager, Turn
client, user mapper, URL parser), given as oracle functions; `Option`
results model fallible calls (`none` = error). -/
structure CoordEnv where
  parsePRURL : String → Option (String × String × Nat)
  turnCheck : String → Option CheckResponse
  resolveChannelID : String → String
  isBotInChannel : String → Bool
  isForumChannel : String → Bool
  updateForumPostOk : String → String → Bool
  postForumThreadResult : String → String → String → Option (String × String)
  updateMessageOk : String → String → Bool
  postMessageResult : String → String → Option String
  isUserInGuild : String → Bool
  guildID : String
  channelsForRepo : String → String → List String
  reminderDMDelay : String → String → Int
  hasUserMapper : Bool
  mapMention : String → String
  mapDiscordID : String → String
  newUUID : Nat → String

/-- Coordinator process-local state: the org and the in-memory tag tracker
(PR URL → usernames already @-mentioned in a channel post). -/
structure Coord where
  org : String := ""
  tagTracker : List (String × List String) := []
deriving DecidableEq, Repr

namespace Coord

/-- `tagTracker.mark(prURL, username)`. -/
def mark (c : Coord) (prURL username : String) : Coord :=
  let users := (lookupA c.tagTracker prURL).getD []
  let users' := if username ∈ users then users else users ++ [username]
  { c with tagTracker := insertA c.tagTracker prURL users' }

/-- `tagTracker.wasTagged(prURL, username)`. -/
def wasTagged (c : Coord) (prURL username : String) : Bool :=
  match lookupA c.tagTracker prURL with
  | none => false
  | some users => decide (username ∈ users)

end Coord

/-- `Coordinator.trackTaggedUsers`: mark each action user whose rendered
mention begins with `<` (a real Discord mention `<@id>`, never the
plain-username fallback for valid GitHub usernames). -/
def trackTaggedUsers (c : Coord) (params : ChannelMessageParams) : Coord :=
  params.actionUsers.foldl
    (fun c0 au =>
      if au.mention ≠ "" && au.mention.startsWith "<" then
        c0.mark params.prURL au.username
      else c0)
    c

/-- `Coordinator.buildActionUsers`: resolve a display mention for every
(username → action) pair (plain username when no mapper is wired). -/
def buildActionUsers (env : CoordEnv) (checkResp : CheckResponse) :
    List ActionUser :=
  checkResp.analysis.nextAction.map fun ua =>
    let mention := if env.hasUserMapper then env.mapMention ua.1 else ua.1
    { username := ua.1, mention := mention, action := ActionLabel ua.2 }

/-- The creation tail of `processForumChannel` (`PostForumThread`, save,
track); `pre` carries the effect of a failed update attempt, if any. -/
def forumCreate (env : CoordEnv) (c : Coord) (s : MemoryStore)
    (channelID owner repo : String) (number : Nat)
    (params : ChannelMessageParams) (title content : String)
    (pre : List Effect) (now : Int) :
    Coord × MemoryStore × List Effect × Bool :=
  match env.postForumThreadResult channelID title content with
  | none => (c, s, pre ++ [Effect.postForumThread channelID title content], true)
  | some (threadID, messageID) =>
      let newInfo : ThreadInfo :=
        { threadID := threadID, messageID := messageID, channelID := channelID,
          channelType := "forum", lastState := params.state,
          messageText := content }
      let s' := s.saveThread owner repo number channelID newInfo now
      let c' := trackTaggedUsers c params
      (c', s', pre ++ [Effect.postForumThread channelID title content], false)

/-- `Coordinator.processForumChannel`: update the existing thread when one
is remembered (archiving on merged/closed), falling back to creating a new
forum thread when the update fails or nothing exists.  No `ClaimThread`
call appears anywhere on this path in the shipped code. -/
def processForumChannel (env : CoordEnv) (c : Coord) (s : MemoryStore)
    (channelID owner repo : String) (number : Nat)
    (params : ChannelMessageParams) (threadInfo : ThreadInfo)
    (texists : Bool) (now : Int) :
    Coord × MemoryStore × List Effect × Bool :=
  let title := ForumThreadTitle params.repo params.number params.title
  let content := ForumThreadContent params
  if texists && threadInfo.threadID ≠ "" then
    let updEff := Effect.updateForumPost threadInfo.threadID
        threadInfo.messageID title content
    if env.updateForumPostOk threadInfo.threadID threadInfo.messageID then
      let ti' := { threadInfo with messageText := content, lastState := params.state }
      let s' := s.saveThread owner repo number channelID ti' now
      let archEffs :=
        if params.state = stateMerged ∨ params.state = stateClosed then
          [Effect.archiveThread threadInfo.threadID]
        else []
      let c' := trackTaggedUsers c params
      (c', s', updEff :: archEffs, false)
    else
      forumCreate env c s channelID owner repo number params title content
        [updEff] now
  else
    forumCreate env c s channelID owner repo number params title content [] now

/-- The creation tail of `processTextChannel` (`PostMessage`, save, track). -/
def textCreate (env : CoordEnv) (c : Coord) (s : MemoryStore)
    (channelID owner repo : String) (number : Nat)
    (params : ChannelMessageParams) (content : String)
    (pre : List Effect) (now : Int) :
    Coord × MemoryStore × List Effect × Bool :=
  match env.postMessageResult channelID content with
  | none => (c, s, pre ++ [Effect.postMessage channelID content], true)
  | some messageID =>
      let newInfo : ThreadInfo :=
        { messageID := messageID, channelID := channelID,
          channelType := "text", lastState := params.state,
          messageText := content }
      let s' := s.saveThread owner repo number channelID newInfo now
      let c' := trackTaggedUsers c params
      (c', s', pre ++ [Effect.postMessage channelID content], false)

/-- `Coordinator.processTextChannel`: update the remembered message when one
exists, falling back to posting a new message.  As with the forum path, the
shipped code performs no `ClaimThread` call. -/
def processTextChannel (env : CoordEnv) (c : Coord) (s : MemoryStore)
    (channelID owner repo : String) (number : Nat)
    (params : ChannelMessageParams) (threadInfo : ThreadInfo)
    (texists : Bool) (now : Int) :
    Coord × MemoryStore × List Effect × Bool :=
  let content := ChannelMessage params
  if texists && threadInfo.messageID ≠ "" then
    let updEff := Effect.updateMessage channelID threadInfo.messageID content
    if env.updateMessageOk channelID threadInfo.messageID then
      let ti' := { threadInfo with messageText := content, lastState := params.state }
      let s' := s.saveThread owner repo number channelID ti' now
      let c' := trackTaggedUsers c params
      (c', s', [updEff], false)
    else
      textCreate env c s channelID owner repo number params content [updEff] now
  else
    textCreate env c s channelID owner repo number params content [] now

/-- `Coordinator.processChannel`: resolve the channel, check bot access,
look up remembered thread state, and dispatch on the channel style. -/
def processChannel (env : CoordEnv) (c : Coord) (s : MemoryStore)
    (channelName owner repo : String) (number : Nat)
    (checkResp : CheckResponse) (prState : PRState)
    (actionUsers : List ActionUser) (now : Int) :
    Coord × MemoryStore × List Effect × Bool :=
  let channelID := env.resolveChannelID channelName
  if channelID = channelName then (c, s, [], false)
  else if !env.isBotInChannel channelID then (c, s, [], false)
  else
    let prURL := FormatPRURL owner repo number
    let params : ChannelMessageParams :=
      { actionUsers := actionUsers, owner := owner, repo := repo,
        title := checkResp.pullRequest.title,
        author := checkResp.pullRequest.author,
        state := prState, prURL := prURL, number := number }
    let (threadInfo, texists) := s.thread owner repo number channelID
    if env.isForumChannel channelID then
      processForumChannel env c s channelID owner repo number params
        threadInfo texists now
    else
      processTextChannel env c s channelID owner repo number params
        threadInfo texists now

/-- One iteration of the `queueDMNotifications` loop (one (username →
action) pair): resolve a Discord id, check guild membership, read the
configured delay (0 disables), compute `SendAt` from the tag tracker, and
queue the `PendingDM`. -/
def queueDMStep (env : CoordEnv) (c : Coord) (owner repo : String)
    (number : Nat) (checkResp : CheckResponse) (prState : PRState)
    (now : Int) (acc : MemoryStore × List Effect)
    (iua : Nat × String × String) : MemoryStore × List Effect :=
  let prURL := FormatPRURL owner repo number
  let (i, username, action) := iua
  let (s0, effs) := acc
  let discordID :=
    if env.hasUserMapper then env.mapDiscordID username else ""
  if discordID = "" then (s0, effs)
  else if !env.isUserInGuild discordID then (s0, effs)
  else
    let channels := env.channelsForRepo c.org repo
    let delay : Int :=
      match channels with
      | [] => 65
      | ch :: _ => env.reminderDMDelay c.org ch
    if delay = 0 then (s0, effs)
    else
      let params : ChannelMessageParams :=
        { actionUsers := [], owner := owner, repo := repo,
          title := checkResp.pullRequest.title,
          author := checkResp.pullRequest.author,
          state := prState, prURL := prURL, number := number }
      let message := DMMessage params (ActionLabel action)
      let sendAt :=
        if c.wasTagged prURL username then now + delay * minute else now
      let dm : PendingDM :=
        { id := env.newUUID i, userID := discordID, prURL := prURL,
          messageText := message, sendAt := sendAt,
          guildID := env.guildID, org := c.org }
      let s1 := s0.queuePendingDM dm now
      (s1, effs ++ [Effect.queueDM ({ dm with createdAt := now })])

/-- `Coordinator.queueDMNotifications`: skip merged/closed PRs, then run
`queueDMStep` over the (username → action) pairs. -/
def queueDMNotifications (env : CoordEnv) (c : Coord) (s : MemoryStore)
    (owner repo : String) (number : Nat) (checkResp : CheckResponse)
    (prState : PRState) (now : Int) : MemoryStore × List Effect :=
  if prState = stateMerged ∨ prState = stateClosed then (s, [])
  else
    checkResp.analysis.nextAction.enum.foldl
      (queueDMStep env c owner repo number checkResp prState now) (s, [])

/-- One iteration of the per-channel loop of `processEventSync`: process
one channel, accumulating state and effects (a per-channel error is logged
and dropped). -/
def processChannelStep (env : CoordEnv) (owner repo : String) (number : Nat)
    (checkResp : CheckResponse) (prState : PRState)
    (actionUsers : List ActionUser) (now : Int)
    (acc : Coord × MemoryStore × List Effect) (channelName : String) :
    Coord × MemoryStore × List Effect :=
  let (c0, s0, es) := acc
  let (c', s', es', _err) := processChannel env c0 s0 channelName
      owner repo number checkResp prState actionUsers now
  (c', s', es ++ es')

/-- The per-channel loop of `processEventSync`: each channel is processed
independently and a failure is logged without aborting the others. -/
def processChannels (env : CoordEnv) (c : Coord) (s : MemoryStore)
    (channels : List String) (owner repo : String) (number : Nat)
    (checkResp : CheckResponse) (prState : PRState)
    (actionUsers : List ActionUser) (now : Int) :
    Coord × MemoryStore × List Effect :=
  channels.foldl (processChannelStep env owner repo number checkResp prState
    actionUsers now) (c, s, [])

/-- `Coordinator.processEventSync`: parse the URL, divert config-repo
events to a reload, stop silently on the dedup-marker hit, degrade on Turn
failure, fan out per channel, queue DMs, and finally mark the event
processed.  Returns the new coordinator state, store, effect trace, and
whether an error was returned. -/
def processEventSync (env : CoordEnv) (c : Coord) (s : MemoryStore)
    (ev : SprinklerEvent) (now : Int) :
    Coord × MemoryStore × List Effect × Bool :=
  match env.parsePRURL ev.url with
  | none => (c, s, [], true)
  | some (owner, repo, number) =>
      if repo = ".codeGROOVE" then (c, s, [Effect.reloadConfig], false)
      else
        let eventKey := ev.deliveryID ++ ":" ++ ev.url
        if s.wasProcessed eventKey now then (c, s, [], false)
        else
          let effs0 := [Effect.loadConfig]
          let checkResp := (env.turnCheck ev.url).getD {}
          let prState := StateFromAnalysis checkResp.pullRequest.merged
              checkResp.pullRequest.closedPR checkResp.pullRequest.draftPR
              checkResp.analysis.workflowState checkResp.analysis.checksFailing
              checkResp.analysis.mergeConflict
          let actionUsers := buildActionUsers env checkResp
          let channels := env.channelsForRepo c.org repo
          if channels = [] then (c, s, effs0, false)
          else
            let folded := processChannels env c s channels owner repo number
                checkResp prState actionUsers now
            let (c1, s1, effs1) := folded
            let (s2, effs2) := queueDMNotifications env c1 s1 owner repo
                number checkResp prState now
            let s3 := s2.markProcessed eventKey eventDeduplicationTTL now
            (c1, s3, effs0 ++ effs1 ++ effs2, false)

/-! ## Shared lemmas about the map model -/

/-! ## Claim fixtures and trace helpers -/

/-- A sequence of `ClaimThread` calls on one key at the given times (the
sequentialisation of racing callers under the store's mutex): the list of
results and the final store. -/
def claimSequence (s : MemoryStore) (owner repo : String) (number : Nat)
    (channelID : String) (ttl : Int) (ts : List Int) :
    List Bool × MemoryStore :=
  ts.foldl
    (fun acc t =>
      let (res, s') :=
        MemoryStore.claimThread acc.2 owner repo number channelID ttl t
      (acc.1 ++ [res], s'))
    ([], s)

/-- C1 fixture: a due pending DM for a user who got a DM 30 s ago. -/
def c1dm : PendingDM :=
  { id := "dm1", userID := "u1", prURL := "https://github.com/o/r/pull/1",
    messageText := "hello", guildID := "g1", sendAt := 0 }

def c1store : MemoryStore :=
  { NewMemoryStore with pendingDMs := [("dm1", c1dm)] }

def c1mgr : NotifyManager :=
  { dmSenders := ["g1"], lastDMTime := [("u1", 70 * second)] }

def c1env : NotifyEnv :=
  { sendDMResult := fun _ _ => some ("dmchan", "dmmsg") }

/-- C3 fixture: a due pending DM whose retry count already sits at the
test-suite's maximum. -/
def c3dm : PendingDM :=
  { id := "dm3", userID := "u3", prURL := "https://github.com/o/r/pull/3",
    messageText := "msg3", guildID := "g3", sendAt := 0, retryCount := 3 }

def c3store : MemoryStore :=
  { NewMemoryStore with pendingDMs := [("dm3", c3dm)] }

def c3mgr : NotifyManager := { dmSenders := ["g3"], lastDMTime := [] }

def c3envOk : NotifyEnv :=
  { sendDMResult := fun _ _ => some ("dmchan", "dmmsg") }

def c3envFail : NotifyEnv := { sendDMResult := fun _ _ => none }

/-- C4 fixture: a due pending DM whose `ExpiresAt` is already in the past. -/
def c4dm : PendingDM :=
  { id := "dm4", userID := "u4", prURL := "https://github.com/o/r/pull/4",
    messageText := "msg4", guildID := "g4", sendAt := 0,
    expiresAt := 50 * second }

def c4store : MemoryStore :=
  { NewMemoryStore with pendingDMs := [("dm4", c4dm)] }

def c4mgr : NotifyManager := { dmSenders := ["g4"], lastDMTime := [] }

def c4env : NotifyEnv :=
  { sendDMResult := fun _ _ => some ("dmchan", "dmmsg") }

/-- `True` iff the trace contains a channel-side resource creation
(`PostMessage` or `PostForumThread`). -/
def creationInvoked (effs : List Effect) : Bool :=
  effs.any fun e => match e with
    | .postMessage _ _ => true
    | .postForumThread _ _ _ => true
    | _ => false

/-- C2 fixture environment: one text channel that resolves and admits the
bot, a Turn client answering an empty analysis, no user mapper. -/
def c2env : CoordEnv :=
  { parsePRURL := fun u =>
      if u = "https://github.com/acme/widgets/pull/7" then
        some ("acme", "widgets", 7)
      else none
    turnCheck := fun _ => some {}
    resolveChannelID := fun name => if name = "widgets" then "chan-1" else name
    isBotInChannel := fun ch => ch = "chan-1"
    isForumChannel := fun _ => false
    updateForumPostOk := fun _ _ => false
    postForumThreadResult := fun _ _ _ => none
    updateMessageOk := fun _ _ => false
    postMessageResult := fun ch _ => some ("msg-" ++ ch)
    isUserInGuild := fun _ => false
    guildID := "guild-1"
    channelsForRepo := fun _ repo => [repo]
    reminderDMDelay := fun _ _ => 65
    hasUserMapper := false
    mapMention := fun u => u
    mapDiscordID := fun _ => ""
    newUUID := fun i => "uuid-" ++ toString i }

def c2event : SprinklerEvent :=
  { url := "https://github.com/acme/widgets/pull/7", deliveryID := "d1" }

def c2coord : Coord := { org := "acme" }

/-- C6 witness fixture: same shape as the C2 environment, kept separate. -/
def c6env : CoordEnv :=
  { parsePRURL := fun u =>
      if u = "https://github.com/acme/widgets/pull/7" then
        some ("acme", "widgets", 7)
      else none
    turnCheck := fun _ => some {}
    resolveChannelID := fun name => if name = "widgets" then "chan-1" else name
    isBotInChannel := fun ch => ch = "chan-1"
    isForumChannel := fun _ => false
    updateForumPostOk := fun _ _ => false
    postForumThreadResult := fun _ _ _ => none
    updateMessageOk := fun _ _ => false
    postMessageResult := fun ch _ => some ("msg-" ++ ch)
    isUserInGuild := fun _ => false
    guildID := "guild-1"
    channelsForRepo := fun _ repo => [repo]
    reminderDMDelay := fun _ _ => 65
    hasUserMapper := false
    mapMention := fun u => u
    mapDiscordID := fun _ => ""
    newUUID := fun i => "uuid-" ++ toString i }

def c6event : SprinklerEvent :=
  { url := "https://github.com/acme/widgets/pull/7", deliveryID := "d6" }

def c6coord : Coord := { org := "acme" }

/-- C7 witness fixture: one mapped, in-guild action user with a 30-minute
configured delay, already tagged for the PR. -/
def c7env : CoordEnv :=
  { parsePRURL := fun _ => none
    turnCheck := fun _ => some {}
    resolveChannelID := fun name => name
    isBotInChannel := fun _ => false
    isForumChannel := fun _ => false
    updateForumPostOk := fun _ _ => false
    postForumThreadResult := fun _ _ _ => none
    updateMessageOk := fun _ _ => false
    postMessageResult := fun _ _ => none
    isUserInGuild := fun x => x = "123456789012345678"
    guildID := "guild-7"
    channelsForRepo := fun _ _ => ["widgets"]
    reminderDMDelay := fun _ _ => 30
    hasUserMapper := true
    mapMention := fun u => u
    mapDiscordID := fun u => if u = "bob" then "123456789012345678" else ""
    newUUID := fun i => "uuid-" ++ toString i }

def c7resp : CheckResponse :=
  { analysis := { nextAction := [("bob", "review")] } }

def c7coord : Coord :=
  { org := "acme"
    tagTracker := [("https://github.com/acme/widgets/pull/7", ["bob"])] }

/-- C9 counterexample fixture: `alice` has the non-numeric configured value
`bobby`, which the directory cannot resolve, while `alice` herself is
directly resolvable in the directory. -/
def c9mapper : Mapper :=
  { configLookup := some fun _ u => if u = "alice" then "bobby" else ""
    discordLookup := some fun v =>
      if v = "alice" then "999888777666555444" else ""
    store := none
    guildID := ""
    cache := []
    org := "o" }

/-! ## Theorems -/

theorem lookupA_insertA_self {α : Type} (l : List (String × α)) (k : String)
    (v : α) : lookupA (insertA l k v) k = some v := by
  induction l with
  | nil => simp [insertA, lookupA]
  | cons hd tl ih =>
      obtain ⟨k', v'⟩ := hd
      by_cases h : k' = k
      · simp [insertA, h, lookupA]
      · simp [insertA, h, lookupA, ih]

theorem lookupA_insertA_ne {α : Type} (l : List (String × α)) (k k' : String)
    (v : α) (h : k ≠ k') : lookupA (insertA l k v) k' = lookupA l k' := by
  induction l with
  | nil => simp [insertA, lookupA, h]
  | cons hd tl ih =>
      obtain ⟨k0, v0⟩ := hd
      by_cases h0 : k0 = k
      · simp [insertA, h0, lookupA, h]
      · simp only [insertA, if_neg h0, lookupA]
        by_cases h1 : k0 = k'
        · simp [h1]
        · simp [h1, ih]

/-! ## Claims -/

/-- C8: the coarse PR state follows the fixed precedence
merged > closed > draft > conflict > failing-checks > workflow-state mapping
> unknown: merged wins over everything, and each later rule fires only when
every earlier one is off. -/
theorem c8_state_precedence :
    (∀ (c d : Bool) (ws : String) (cf : Int) (mc : Bool),
        StateFromAnalysis true c d ws cf mc = stateMerged) ∧
    (∀ (d : Bool) (ws : String) (cf : Int) (mc : Bool),
        StateFromAnalysis false true d ws cf mc = stateClosed) ∧
    (∀ (ws : String) (cf : Int) (mc : Bool),
        StateFromAnalysis false false true ws cf mc = stateDraft) ∧
    (∀ (ws : String) (cf : Int),
        StateFromAnalysis false false false ws cf true = stateConflict) ∧
    (∀ (ws : String) (cf : Int), cf > 0 →
        StateFromAnalysis false false false ws cf false = stateTestsBroken) ∧
    (∀ (ws : String) (cf : Int), cf ≤ 0 →
        StateFromAnalysis false false false ws cf false = workflowStateMap ws) ∧
    (∀ ws : String,
        ws ∉ ["IN_DRAFT", "NEWLY_PUBLISHED", "PUBLISHED_WAITING_FOR_TESTS",
          "TESTED_WAITING_FOR_FIXES", "REVIEWED_NEEDS_REFINEMENT",
          "APPROVED_WAITING_FOR_MERGE", "TESTED_WAITING_FOR_ASSIGNMENT",
          "ASSIGNED_WAITING_FOR_REVIEW", "REFINED_WAITING_FOR_APPROVAL"] →
        workflowStateMap ws = stateUnknown) := by
  refine ⟨?_, ?_, ?_, ?_, ?_, ?_, ?_⟩
  · intro c d ws cf mc; simp [StateFromAnalysis]
  · intro d ws cf mc; simp [StateFromAnalysis]
  · intro ws cf mc; simp [StateFromAnalysis]
  · intro ws cf; simp [StateFromAnalysis]
  · intro ws cf h; simp [StateFromAnalysis, h]
  · intro ws cf h; simp [StateFromAnalysis, not_lt.mpr h]
  · intro ws h
    simp only [List.mem_cons, List.mem_singleton, not_or] at h
    obtain ⟨h1, h2, h3, h4, h5, h6, h7, h8, h9, _⟩ := h
    simp [workflowStateMap, h1, h2, h3, h4, h5, h6, h7, h8, h9]

/-- C8 witness: the precedence chain applied at concrete inputs. -/
theorem c8_state_precedence_witness :
    StateFromAnalysis true true true "X" 5 true = stateMerged ∧
    StateFromAnalysis false false false "X" 2 false = stateTestsBroken ∧
    StateFromAnalysis false false false "APPROVED_WAITING_FOR_MERGE" 0 false =
      stateApproved := by
  refine ⟨c8_state_precedence.1 true true "X" 5 true, ?_, ?_⟩
  · exact c8_state_precedence.2.2.2.2.1 "X" 2 (by norm_num)
  · have h := c8_state_precedence.2.2.2.2.2.1 "APPROVED_WAITING_FOR_MERGE" 0
      (by norm_num)
    simpa [workflowStateMap] using h

/-- C10: the in-memory `MarkProcessed` ignores its ttl argument — for any
two requested ttls the resulting stores are identical — and on a store with
the fixed 24-hour event retention (as built by `NewMemoryStore`),
`WasProcessed` answers true exactly until 24 hours after marking, so a
caller-requested idempotency TTL (e.g. the Coordinator's one hour) is not
honored. -/
theorem c10_mark_processed_ignores_ttl (s : MemoryStore) (key : String)
    (ttl1 ttl2 now t : Int) (h : s.eventRetain = 24 * hour) :
    s.markProcessed key ttl1 now = s.markProcessed key ttl2 now ∧
    NewMemoryStore.eventRetain = 24 * hour ∧
    (s.markProcessed key ttl1 now).wasProcessed key t =
      decide (t - now ≤ 24 * hour) := by
  refine ⟨rfl, rfl, ?_⟩
  simp only [MemoryStore.markProcessed, MemoryStore.wasProcessed,
    lookupA_insertA_self, h]
  by_cases hle : t - now ≤ 24 * hour
  · simp [hle, not_lt.mpr hle]
  · simp [hle, lt_of_not_le hle]

/-- C10 witness: one hour requested, marker still live 2 hours later and
dead 25 hours later. -/
theorem c10_mark_processed_ignores_ttl_witness :
    NewMemoryStore.eventRetain = 24 * hour ∧
    (NewMemoryStore.markProcessed "k" hour 0).wasProcessed "k" (2 * hour) =
      true ∧
    (NewMemoryStore.markProcessed "k" hour 0).wasProcessed "k" (25 * hour) =
      false := by
  have h2 := c10_mark_processed_ignores_ttl NewMemoryStore "k" hour hour 0
    (2 * hour) rfl
  have h25 := c10_mark_processed_ignores_ttl NewMemoryStore "k" hour hour 0
    (25 * hour) rfl
  refine ⟨h2.2.1, ?_, ?_⟩
  · rw [h2.2.2]; decide
  · rw [h25.2.2]; decide

theorem claimThread_success_claims (s s' : MemoryStore) (owner repo : String)
    (number : Nat) (channelID : String) (ttl t0 : Int)
    (h : s.claimThread owner repo number channelID ttl t0 = (true, s')) :
    lookupA s'.claims ("claim:thread:" ++ threadKey owner repo number
      channelID) = some (t0 + ttl) := by
  unfold MemoryStore.claimThread at h
  simp only [] at h
  rcases hl : lookupA s.claims ("claim:thread:" ++ threadKey owner repo number
      channelID) with _ | expiry
  · rw [hl] at h
    simp only [Prod.mk.injEq] at h
    rw [← h.2]
    exact lookupA_insertA_self _ _ _
  · rw [hl] at h
    by_cases ht : t0 < expiry
    · simp [ht] at h
    · simp only [if_neg ht, Prod.mk.injEq] at h
      rw [← h.2]
      exact lookupA_insertA_self _ _ _

theorem claimThread_denied_while_claimed (s1 : MemoryStore)
    (owner repo : String) (number : Nat) (channelID : String)
    (expiry ttl2 t1 : Int)
    (hclaims : lookupA s1.claims ("claim:thread:" ++ threadKey owner repo
      number channelID) = some expiry)
    (ht : t1 < expiry) :
    s1.claimThread owner repo number channelID ttl2 t1 = (false, s1) := by
  unfold MemoryStore.claimThread
  simp only []
  rw [hclaims]
  simp [ht]

/-- C5: once `ClaimThread` succeeds for a key at `t0` with some ttl, (i)
any further call on the same key before `t0 + ttl` returns false and leaves
the store unchanged, (ii) a whole sequence of such calls all before expiry
yields only false answers (so of racing callers exactly the first wins),
and (iii) a call at or after `t0 + ttl` succeeds again. -/
theorem c5_claim_exclusive (s s' : MemoryStore) (owner repo : String)
    (number : Nat) (channelID : String) (ttl t0 : Int)
    (h : s.claimThread owner repo number channelID ttl t0 = (true, s')) :
    (∀ ttl2 t1, t1 < t0 + ttl →
      s'.claimThread owner repo number channelID ttl2 t1 = (false, s')) ∧
    (∀ ttl2 (ts : List Int), (∀ t ∈ ts, t < t0 + ttl) →
      claimSequence s' owner repo number channelID ttl2 ts =
        (ts.map fun _ => false, s')) ∧
    (∀ ttl2 t1, t0 + ttl ≤ t1 →
      (s'.claimThread owner repo number channelID ttl2 t1).1 = true) := by
  have hclaims := claimThread_success_claims s s' owner repo number channelID
    ttl t0 h
  refine ⟨?_, ?_, ?_⟩
  · intro ttl2 t1 ht
    exact claimThread_denied_while_claimed s' owner repo number channelID
      (t0 + ttl) ttl2 t1 hclaims ht
  · intro ttl2 ts hts
    have key : ∀ (pre : List Bool) (l : List Int), (∀ t ∈ l, t < t0 + ttl) →
        l.foldl
          (fun acc t =>
            let (res, s2) :=
              MemoryStore.claimThread acc.2 owner repo number channelID ttl2 t
            (acc.1 ++ [res], s2))
          (pre, s') = (pre ++ l.map fun _ => false, s') := by
      intro pre l
      induction l generalizing pre with
      | nil => intro _; simp
      | cons hd tl ih =>
          intro hl
          have hhd : hd < t0 + ttl := hl hd (List.mem_cons_self hd tl)
          have hstep := claimThread_denied_while_claimed s' owner repo number
            channelID (t0 + ttl) ttl2 hd hclaims hhd
          simp only [List.foldl_cons, hstep]
          have := ih (pre ++ [false]) (fun t htl => hl t (List.mem_cons_of_mem hd htl))
          simp only [this, List.map_cons]
          simp
    have := key [] ts hts
    simpa [claimSequence] using this
  · intro ttl2 t1 ht
    unfold MemoryStore.claimThread
    simp only []
    rw [hclaims]
    simp [not_lt.mpr ht]

/-- C5 witness: a successful claim at time 0 with a 10-second ttl, a rival
denied at 5 seconds (store untouched), a denied two-call sequence, and a
fresh success at 10 seconds. -/
theorem c5_claim_exclusive_witness :
    (NewMemoryStore.claimThread "o" "r" 1 "chan" (10 * second) 0).1 = true ∧
    ((NewMemoryStore.claimThread "o" "r" 1 "chan" (10 * second) 0).2.claimThread
      "o" "r" 1 "chan" (10 * second) (5 * second) =
      (false, (NewMemoryStore.claimThread "o" "r" 1 "chan" (10 * second) 0).2)) ∧
    ((NewMemoryStore.claimThread "o" "r" 1 "chan" (10 * second) 0).2.claimThread
      "o" "r" 1 "chan" (10 * second) (10 * second)).1 = true := by
  have hsucc : NewMemoryStore.claimThread "o" "r" 1 "chan" (10 * second) 0 =
      (true, (NewMemoryStore.claimThread "o" "r" 1 "chan" (10 * second) 0).2) := by
    decide
  have h := c5_claim_exclusive NewMemoryStore
    (NewMemoryStore.claimThread "o" "r" 1 "chan" (10 * second) 0).2
    "o" "r" 1 "chan" (10 * second) 0 hsucc
  refine ⟨by decide, ?_, ?_⟩
  · exact h.1 (10 * second) (5 * second) (by decide)
  · exact h.2.2 (10 * second) (10 * second) (by decide)

/-! ### C1: rate-limited pending DMs (notify.Manager sweep) -/

/-- C1 (code bug): a due DM whose target user received a DM 30 s ago (less
than the one-minute `minDMInterval`) is rate-limited — `sendDM` skips
delivery but returns nil — and the sweep therefore REMOVES the entry from
the queue, although the code's own comment says "Will retry next cycle" and
the spec says the entry is left in the queue. -/
theorem c1_rate_limited_dm_removed :
    (100 * second - 70 * second < minDMInterval ∧
      c1store.pendingDMsDue (100 * second) = [c1dm]) ∧
    deliveryInvoked
      (processPendingDMs c1env c1mgr c1store (100 * second)).2.2 = false ∧
    (processPendingDMs c1env c1mgr c1store (100 * second)).2.1.pendingDMs =
      [] := by
  decide

/-! ### C3: retry exhaustion and retry accounting (notify.Manager sweep) -/

/-- C3 (code bug): the shipped sweep has no retry-exhaustion check and no
retry accounting.  (i) A due entry at the maximum retry count still has
delivery invoked; (ii) after a failed delivery the kept entry's retry count
is unchanged (not incremented) and its `SendAt` is not pushed back; (iii)
`sendDM` ignores the retry count entirely: its result is identical for any
two retry counts. -/
theorem c3_retry_checks_missing :
    (deliveryInvoked
        (processPendingDMs c3envOk c3mgr c3store (100 * second)).2.2 = true) ∧
    ((processPendingDMs c3envFail c3mgr c3store (100 * second)).2.1.pendingDMs
        = [("dm3", c3dm)] ∧ c3dm.retryCount = 3 ∧ c3dm.sendAt = 0) ∧
    (∀ (env : NotifyEnv) (m : NotifyManager) (s : MemoryStore)
        (dm : PendingDM) (rc rc' now : Int),
      sendDMStep env m s { dm with retryCount := rc } now =
        sendDMStep env m s { dm with retryCount := rc' } now) := by
  refine ⟨by decide, by decide, ?_⟩
  intro env m s dm rc rc' now
  rfl

/-! ### C4: expired pending DMs (notify.Manager sweep) -/

/-- C4 (code bug): neither `MemoryStore.PendingDMs` nor the shipped sweep
checks `ExpiresAt` — an entry whose expiry lies in the past at sweep time
is still returned as due and delivery IS invoked for it (the spec and the
package's own test say it must be removed without sending). -/
theorem c4_expired_dm_still_delivered :
    (100 * second > c4dm.expiresAt ∧
      c4store.pendingDMsDue (100 * second) = [c4dm]) ∧
    deliveryInvoked
      (processPendingDMs c4env c4mgr c4store (100 * second)).2.2 = true := by
  decide

/-! ### C2: creation is never preceded by a ClaimThread call -/

theorem claimInvoked_append (a b : List Effect) :
    claimInvoked (a ++ b) = (claimInvoked a || claimInvoked b) := by
  simp [claimInvoked, List.any_append]

theorem forumCreate_noclaim (env : CoordEnv) (c : Coord) (s : MemoryStore)
    (channelID owner repo : String) (number : Nat)
    (params : ChannelMessageParams) (title content : String)
    (pre : List Effect) (now : Int) (hpre : claimInvoked pre = false) :
    claimInvoked (forumCreate env c s channelID owner repo number params
      title content pre now).2.2.1 = false := by
  unfold forumCreate
  split
  · rw [claimInvoked_append, hpre]; simp [claimInvoked]
  · rw [claimInvoked_append, hpre]; simp [claimInvoked]

theorem textCreate_noclaim (env : CoordEnv) (c : Coord) (s : MemoryStore)
    (channelID owner repo : String) (number : Nat)
    (params : ChannelMessageParams) (content : String)
    (pre : List Effect) (now : Int) (hpre : claimInvoked pre = false) :
    claimInvoked (textCreate env c s channelID owner repo number params
      content pre now).2.2.1 = false := by
  unfold textCreate
  split
  · rw [claimInvoked_append, hpre]; simp [claimInvoked]
  · rw [claimInvoked_append, hpre]; simp [claimInvoked]

/-- C2 (code bug): the shipped channel handlers never call `ClaimThread`.
(i)/(ii): on EVERY input, the forum and text handlers emit no claim call;
(iii)/(iv): on a concrete fresh-store event the Coordinator creates a new
channel message with no claim anywhere in the trace — although the spec
(and the repo's own deployment notes on the claims namespace) require a
successful claim before creation. -/
theorem c2_creation_without_claim :
    (∀ (env : CoordEnv) (c : Coord) (s : MemoryStore)
        (channelID owner repo : String) (number : Nat)
        (params : ChannelMessageParams) (ti : ThreadInfo) (texists : Bool)
        (now : Int),
      claimInvoked (processForumChannel env c s channelID owner repo number
        params ti texists now).2.2.1 = false) ∧
    (∀ (env : CoordEnv) (c : Coord) (s : MemoryStore)
        (channelID owner repo : String) (number : Nat)
        (params : ChannelMessageParams) (ti : ThreadInfo) (texists : Bool)
        (now : Int),
      claimInvoked (processTextChannel env c s channelID owner repo number
        params ti texists now).2.2.1 = false) ∧
    creationInvoked
      (processEventSync c2env c2coord NewMemoryStore c2event 0).2.2.1 =
      true ∧
    claimInvoked
      (processEventSync c2env c2coord NewMemoryStore c2event 0).2.2.1 =
      false := by
  refine ⟨?_, ?_, by decide, by decide⟩
  · intro env c s channelID owner repo number params ti texists now
    unfold processForumChannel
    split
    · split
      · split <;> simp [claimInvoked]
      · exact forumCreate_noclaim env c s channelID owner repo number params
          _ _ _ now (by simp [claimInvoked])
    · exact forumCreate_noclaim env c s channelID owner repo number params
        _ _ _ now (by simp [claimInvoked])
  · intro env c s channelID owner repo number params ti texists now
    unfold processTextChannel
    split
    · split
      · simp [claimInvoked]
      · exact textCreate_noclaim env c s channelID owner repo number params
          _ _ now (by simp [claimInvoked])
    · exact textCreate_noclaim env c s channelID owner repo number params
        _ _ now (by simp [claimInvoked])

/-! ### C6: dedup idempotence -/

theorem forumCreate_preserves (env : CoordEnv) (c : Coord) (s : MemoryStore)
    (channelID owner repo : String) (number : Nat)
    (params : ChannelMessageParams) (title content : String)
    (pre : List Effect) (now : Int) :
    (forumCreate env c s channelID owner repo number params title content
      pre now).2.1.processed = s.processed ∧
    (forumCreate env c s channelID owner repo number params title content
      pre now).2.1.eventRetain = s.eventRetain := by
  unfold forumCreate
  split
  · exact ⟨rfl, rfl⟩
  · simp [MemoryStore.saveThread]

theorem textCreate_preserves (env : CoordEnv) (c : Coord) (s : MemoryStore)
    (channelID owner repo : String) (number : Nat)
    (params : ChannelMessageParams) (content : String)
    (pre : List Effect) (now : Int) :
    (textCreate env c s channelID owner repo number params content
      pre now).2.1.processed = s.processed ∧
    (textCreate env c s channelID owner repo number params content
      pre now).2.1.eventRetain = s.eventRetain := by
  unfold textCreate
  split
  · exact ⟨rfl, rfl⟩
  · simp [MemoryStore.saveThread]

theorem processForumChannel_preserves (env : CoordEnv) (c : Coord)
    (s : MemoryStore) (channelID owner repo : String) (number : Nat)
    (params : ChannelMessageParams) (ti : ThreadInfo) (texists : Bool)
    (now : Int) :
    (processForumChannel env c s channelID owner repo number params ti
      texists now).2.1.processed = s.processed ∧
    (processForumChannel env c s channelID owner repo number params ti
      texists now).2.1.eventRetain = s.eventRetain := by
  unfold processForumChannel
  split
  · split
    · simp [MemoryStore.saveThread]
    · exact forumCreate_preserves env c s channelID owner repo number params
        _ _ _ now
  · exact forumCreate_preserves env c s channelID owner repo number params
      _ _ _ now

theorem processTextChannel_preserves (env : CoordEnv) (c : Coord)
    (s : MemoryStore) (channelID owner repo : String) (number : Nat)
    (params : ChannelMessageParams) (ti : ThreadInfo) (texists : Bool)
    (now : Int) :
    (processTextChannel env c s channelID owner repo number params ti
      texists now).2.1.processed = s.processed ∧
    (processTextChannel env c s channelID owner repo number params ti
      texists now).2.1.eventRetain = s.eventRetain := by
  unfold processTextChannel
  split
  · split
    · simp [MemoryStore.saveThread]
    · exact textCreate_preserves env c s channelID owner repo number params
        _ _ now
  · exact textCreate_preserves env c s channelID owner repo number params
      _ _ now

theorem processChannel_preserves (env : CoordEnv) (c : Coord)
    (s : MemoryStore) (channelName owner repo : String) (number : Nat)
    (checkResp : CheckResponse) (prState : PRState)
    (actionUsers : List ActionUser) (now : Int) :
    (processChannel env c s channelName owner repo number checkResp prState
      actionUsers now).2.1.processed = s.processed ∧
    (processChannel env c s channelName owner repo number checkResp prState
      actionUsers now).2.1.eventRetain = s.eventRetain := by
  unfold processChannel
  simp only []
  split
  · exact ⟨rfl, rfl⟩
  · split
    · exact ⟨rfl, rfl⟩
    · rcases hp : s.thread owner repo number (env.resolveChannelID
          channelName) with ⟨ti, te⟩
      split
      · exact processForumChannel_preserves env c s _ owner repo number _ ti
          te now
      · exact processTextChannel_preserves env c s _ owner repo number _ ti
          te now

theorem foldl_inv {α β : Type} (P : β → Prop) (f : β → α → β) :
    ∀ (l : List α) (init : β), P init → (∀ b a, P b → P (f b a)) →
    P (l.foldl f init) := by
  intro l
  induction l with
  | nil => intro init h _; exact h
  | cons hd tl ih =>
      intro init h hstep
      exact ih (f init hd) (hstep init hd h) hstep

theorem processChannels_preserves (env : CoordEnv) (owner repo : String)
    (number : Nat) (checkResp : CheckResponse) (prState : PRState)
    (actionUsers : List ActionUser) (now : Int)
    (channels : List String) (c : Coord) (s : MemoryStore) :
    (processChannels env c s channels owner repo number checkResp prState
      actionUsers now).2.1.processed = s.processed ∧
    (processChannels env c s channels owner repo number checkResp prState
      actionUsers now).2.1.eventRetain = s.eventRetain := by
  unfold processChannels
  refine foldl_inv
    (fun acc : Coord × MemoryStore × List Effect =>
      acc.2.1.processed = s.processed ∧ acc.2.1.eventRetain = s.eventRetain)
    (processChannelStep env owner repo number checkResp prState actionUsers
      now)
    channels (c, s, []) ⟨rfl, rfl⟩ ?_
  intro b a hb
  obtain ⟨c0, s0, es0⟩ := b
  unfold processChannelStep
  rcases hpc : processChannel env c0 s0 a owner repo number checkResp prState
      actionUsers now with ⟨c', s', es', err⟩
  have hstep := processChannel_preserves env c0 s0 a owner repo number
    checkResp prState actionUsers now
  rw [hpc] at hstep
  simp only [hpc]
  exact ⟨hstep.1.trans hb.1, hstep.2.trans hb.2⟩

theorem queueDMNotifications_preserves (env : CoordEnv) (c : Coord)
    (s : MemoryStore) (owner repo : String) (number : Nat)
    (checkResp : CheckResponse) (prState : PRState) (now : Int) :
    (queueDMNotifications env c s owner repo number checkResp prState
      now).1.processed = s.processed ∧
    (queueDMNotifications env c s owner repo number checkResp prState
      now).1.eventRetain = s.eventRetain := by
  unfold queueDMNotifications
  split
  · exact ⟨rfl, rfl⟩
  · refine foldl_inv
      (fun acc : MemoryStore × List Effect =>
        acc.1.processed = s.processed ∧ acc.1.eventRetain = s.eventRetain)
      (queueDMStep env c owner repo number checkResp prState now)
      checkResp.analysis.nextAction.enum (s, []) ⟨rfl, rfl⟩ ?_
    intro b a hb
    obtain ⟨i, username, action⟩ := a
    obtain ⟨s1, effs⟩ := b
    have hq : ∀ (dm : PendingDM),
        (s1.queuePendingDM dm now).processed = s1.processed ∧
        (s1.queuePendingDM dm now).eventRetain = s1.eventRetain := by
      intro dm; simp [MemoryStore.queuePendingDM]
    unfold queueDMStep
    simp only []
    split
    · split
      · exact hb
      · split
        · exact hb
        · split
          · exact hb
          · exact ⟨((hq _).1).trans hb.1, ((hq _).2).trans hb.2⟩
    · simp only [if_pos rfl]
      exact hb

/-- C6 gate: once the dedup marker answers true, the per-event algorithm
stops silently — no effects, no state change, no error. -/
theorem processEventSync_dedup_gate (env : CoordEnv) (c : Coord)
    (s : MemoryStore) (ev : SprinklerEvent) (t : Int)
    (owner repo : String) (number : Nat)
    (hparse : env.parsePRURL ev.url = some (owner, repo, number))
    (hrepo : repo ≠ ".codeGROOVE")
    (hproc : s.wasProcessed (ev.deliveryID ++ ":" ++ ev.url) t = true) :
    processEventSync env c s ev t = (c, s, [], false) := by
  unfold processEventSync
  rw [hparse]
  simp only [if_neg hrepo, hproc, if_true]

/-- C6 marking: a fresh event that reaches the channel fan-out ends with
the dedup marker stamped at sweep time and the retention window intact. -/
theorem processEventSync_marks (env : CoordEnv) (c : Coord) (s : MemoryStore)
    (ev : SprinklerEvent) (t0 : Int) (owner repo : String) (number : Nat)
    (hparse : env.parsePRURL ev.url = some (owner, repo, number))
    (hrepo : repo ≠ ".codeGROOVE")
    (hfresh : s.wasProcessed (ev.deliveryID ++ ":" ++ ev.url) t0 = false)
    (hch : env.channelsForRepo c.org repo ≠ []) :
    lookupA (processEventSync env c s ev t0).2.1.processed
      (ev.deliveryID ++ ":" ++ ev.url) = some t0 ∧
    (processEventSync env c s ev t0).2.1.eventRetain = s.eventRetain := by
  unfold processEventSync
  rw [hparse]
  simp only [if_neg hrepo, hfresh, Bool.false_eq_true, if_false, if_neg hch]
  set resp := (env.turnCheck ev.url).getD {} with hresp
  set prS := StateFromAnalysis resp.pullRequest.merged
    resp.pullRequest.closedPR resp.pullRequest.draftPR
    resp.analysis.workflowState resp.analysis.checksFailing
    resp.analysis.mergeConflict with hprS
  set aus := buildActionUsers env resp with haus
  set chs := env.channelsForRepo c.org repo with hchs
  rcases hfold : processChannels env c s chs owner repo number resp prS aus t0
    with ⟨c1, s1, effs1⟩
  have hfoldp := processChannels_preserves env owner repo number resp prS aus
    t0 chs c s
  rw [hfold] at hfoldp
  dsimp only
  rcases hq : queueDMNotifications env c1 s1 owner repo number resp prS t0
    with ⟨s2, effs2⟩
  have hqp := queueDMNotifications_preserves env c1 s1 owner repo number resp
    prS t0
  rw [hq] at hqp
  constructor
  · simp only [MemoryStore.markProcessed, lookupA_insertA_self]
  · simp only [MemoryStore.markProcessed]
    exact hqp.2.trans hfoldp.2

/-- C6: processing the same (delivery-id, URL) pair twice within the dedup
TTL yields exactly one set of channel-side effects — the first run marks
the event processed, and the second run stops at the `WasProcessed` check
with no effects and no state change. -/
theorem c6_dedup_idempotent (env : CoordEnv) (c : Coord) (s : MemoryStore)
    (ev : SprinklerEvent) (t0 t1 : Int) (owner repo : String) (number : Nat)
    (hparse : env.parsePRURL ev.url = some (owner, repo, number))
    (hrepo : repo ≠ ".codeGROOVE")
    (hfresh : s.wasProcessed (ev.deliveryID ++ ":" ++ ev.url) t0 = false)
    (hch : env.channelsForRepo c.org repo ≠ [])
    (hretain : s.eventRetain = 24 * hour)
    (hwin : t1 - t0 ≤ eventDeduplicationTTL) :
    processEventSync env (processEventSync env c s ev t0).1
      (processEventSync env c s ev t0).2.1 ev t1 =
      ((processEventSync env c s ev t0).1,
        (processEventSync env c s ev t0).2.1, [], false) := by
  have hmark := processEventSync_marks env c s ev t0 owner repo number hparse
    hrepo hfresh hch
  apply processEventSync_dedup_gate env _ _ ev t1 owner repo number hparse
    hrepo
  unfold MemoryStore.wasProcessed
  rw [hmark.1]
  have hret : (processEventSync env c s ev t0).2.1.eventRetain = 24 * hour :=
    hmark.2.trans hretain
  rw [hret]
  have hle : t1 - t0 ≤ 24 * hour := by
    refine hwin.trans ?_
    unfold eventDeduplicationTTL hour minute second
    norm_num
  simp [not_lt.mpr, hle, not_lt_of_le]

/-- C6 witness: a concrete first run posts a message; the re-run one minute
later (within the one-hour dedup TTL) is a silent no-op. -/
theorem c6_dedup_idempotent_witness :
    processEventSync c6env (processEventSync c6env c6coord NewMemoryStore
        c6event 0).1
      (processEventSync c6env c6coord NewMemoryStore c6event 0).2.1 c6event
      minute =
      ((processEventSync c6env c6coord NewMemoryStore c6event 0).1,
        (processEventSync c6env c6coord NewMemoryStore c6event 0).2.1, [],
        false) :=
  c6_dedup_idempotent c6env c6coord NewMemoryStore c6event 0 minute
    "acme" "widgets" 7 (by decide) (by decide) (by decide) (by decide) rfl
    (by decide)

/-! ### C7: tag-aware DM delay -/

theorem wasTagged_mark_ne (c : Coord) (prURL u v : String) (h : u ≠ v) :
    (c.mark prURL v).wasTagged prURL u = c.wasTagged prURL u := by
  unfold Coord.mark Coord.wasTagged
  rcases hl : lookupA c.tagTracker prURL with _ | users
  · simp only [hl, Option.getD_none, List.not_mem_nil, if_neg,
      lookupA_insertA_self]
    simp [h]
  · simp only [hl, Option.getD_some, lookupA_insertA_self]
    by_cases hv : v ∈ users
    · simp [hv]
    · simp [hv, h]

theorem trackTaggedUsers_new_tag (params : ChannelMessageParams)
    (u' : String) :
    ∀ (c0 : Coord),
    (trackTaggedUsers c0 params).wasTagged params.prURL u' = true →
    c0.wasTagged params.prURL u' = false →
    ∃ au ∈ params.actionUsers, au.username = u' ∧
      au.mention.startsWith "<" = true := by
  unfold trackTaggedUsers
  have go : ∀ (l : List ActionUser) (c0 : Coord),
      (l.foldl
        (fun c1 au =>
          if au.mention ≠ "" && au.mention.startsWith "<" then
            c1.mark params.prURL au.username
          else c1)
        c0).wasTagged params.prURL u' = true →
      c0.wasTagged params.prURL u' = false →
      ∃ au ∈ l, au.username = u' ∧ au.mention.startsWith "<" = true := by
    intro l
    induction l with
    | nil =>
        intro c0 hafter hbefore
        rw [List.foldl_nil] at hafter
        rw [hafter] at hbefore
        exact absurd hbefore (by simp)
    | cons au rest ih =>
        intro c0 hafter hbefore
        rw [List.foldl_cons] at hafter
        by_cases hcond : (au.mention ≠ "" && au.mention.startsWith "<") = true
        · rw [if_pos hcond] at hafter
          by_cases hu : u' = au.username
          · refine ⟨au, List.mem_cons_self au rest, hu.symm, ?_⟩
            exact ((Bool.and_eq_true _ _).mp hcond).2
          · have heq := wasTagged_mark_ne c0 params.prURL u' au.username hu
            obtain ⟨au', hmem, hau'⟩ := ih (c0.mark params.prURL au.username)
              hafter (heq.trans hbefore)
            exact ⟨au', List.mem_cons_of_mem au hmem, hau'⟩
        · rw [if_neg hcond] at hafter
          obtain ⟨au', hmem, hau'⟩ := ih c0 hafter hbefore
          exact ⟨au', List.mem_cons_of_mem au hmem, hau'⟩
  exact go params.actionUsers

/-- C7: (i) for a queued DM, `SendAt` is queue time plus the configured
delay in minutes when the user was already tagged for this PR, and queue
time itself (immediate) otherwise; (ii) a user newly marked tagged by
`trackTaggedUsers` always has a rendered mention starting with `<`; (iii)
a `Mention` that starts with `<` for a username that does not is a real
resolved Discord mention (`DiscordID` non-empty), never the plain-text
fallback. -/
theorem c7_tag_aware_dm_delay (env : CoordEnv) (c : Coord) (s : MemoryStore)
    (owner repo : String) (number : Nat) (checkResp : CheckResponse)
    (prState : PRState) (now : Int) (u a d ch : String) (rest : List String)
    (delay : Int)
    (hact : checkResp.analysis.nextAction = [(u, a)])
    (hmapper : env.hasUserMapper = true)
    (hd : env.mapDiscordID u = d) (hd0 : ¬d = "")
    (hguild : env.isUserInGuild d = true)
    (hch : env.channelsForRepo c.org repo = ch :: rest)
    (hdelay : env.reminderDMDelay c.org ch = delay) (hdelay0 : ¬delay = 0)
    (hstate : ¬(prState = stateMerged ∨ prState = stateClosed)) :
    (∃ dm : PendingDM,
      (queueDMNotifications env c s owner repo number checkResp prState
        now).2 = [Effect.queueDM dm] ∧
      dm.userID = d ∧
      dm.sendAt =
        (if c.wasTagged (FormatPRURL owner repo number) u then
          now + delay * minute
        else now)) ∧
    (∀ (params : ChannelMessageParams) (c0 : Coord) (u' : String),
      (trackTaggedUsers c0 params).wasTagged params.prURL u' = true →
      c0.wasTagged params.prURL u' = false →
      ∃ au ∈ params.actionUsers, au.username = u' ∧
        au.mention.startsWith "<" = true) ∧
    (∀ (m : Mapper) (u' : String) (t : Int),
      u'.startsWith "<" = false → (Mention m u' t).startsWith "<" = true →
      (DiscordID m u' t).1 ≠ "") := by
  refine ⟨?_, fun params c0 u' => trackTaggedUsers_new_tag params u' c0, ?_⟩
  · unfold queueDMNotifications
    rw [if_neg hstate, hact]
    simp only [List.enum, List.enumFrom, List.foldl_cons, List.foldl_nil]
    unfold queueDMStep
    simp only [hmapper, if_true, hd, hch, hdelay]
    rw [if_neg hd0]
    simp only [hguild, Bool.not_true, Bool.false_eq_true, if_false]
    rw [if_neg hdelay0]
    exact ⟨_, rfl, rfl, rfl⟩
  · intro m u' t hu hmention
    intro hid
    rw [Mention] at hmention
    rcases hD : DiscordID m u' t with ⟨id, m'⟩
    rw [hD] at hmention
    rw [hD] at hid
    simp only at hid
    rw [hid] at hmention
    simp at hmention
    rw [hmention] at hu
    simp at hu

/-- C7 witness: the tagged user's queued DM is delayed by exactly the
configured 30 minutes from queue time. -/
theorem c7_tag_aware_dm_delay_witness :
    ∃ dm : PendingDM,
      (queueDMNotifications c7env c7coord NewMemoryStore "acme" "widgets" 7
        c7resp stateNeedsReview 0).2 = [Effect.queueDM dm] ∧
      dm.userID = "123456789012345678" ∧ dm.sendAt = 30 * minute := by
  have h := c7_tag_aware_dm_delay c7env c7coord NewMemoryStore "acme"
    "widgets" 7 c7resp stateNeedsReview 0 "bob" "review"
    "123456789012345678" "widgets" [] 30 rfl rfl (by decide) (by decide)
    (by decide) rfl rfl (by decide) (by decide)
  obtain ⟨dm, heff, huser, hsend⟩ := h.1
  refine ⟨dm, heff, huser, ?_⟩
  rw [hsend]
  have ht : c7coord.wasTagged (FormatPRURL "acme" "widgets" 7) "bob" =
      true := by decide
  simp [ht]

/-! ### C9: tiered identity resolution -/

/-- C9 counterexample: with a non-empty configured value (`bobby`) and a
directory-resolvable source username (`alice`), `DiscordID` returns the
directory match for the source username itself — not a value derived from
the configuration — because the configured display name fails to resolve
and the code falls soft through to tier 3. -/
theorem c9_counterexample :
    (match c9mapper.configLookup with
      | some cl => cl "o" "alice"
      | none => "") = "bobby" ∧
    (match c9mapper.discordLookup with
      | some dl => dl "alice"
      | none => "") = "999888777666555444" ∧
    (match c9mapper.discordLookup with
      | some dl => dl "bobby"
      | none => "") = "" ∧
    (DiscordID c9mapper "alice" 0).1 = "999888777666555444" ∧
    (DiscordID c9mapper "alice" 0).1 ≠ "bobby" := by
  decide

/-- C9 (amended): tier 1 wins whenever the configured value is USABLE — a
numeric snowflake of length 17–20 is returned directly, and a non-numeric
value that the directory resolves is returned resolved; only an unusable
configured value falls soft through to the lower tiers. -/
theorem c9_config_tier_wins (m : Mapper) (u : String) (now : Int)
    (cl : String → String → String) (cv : String)
    (hcache : ∀ e, lookupA m.cache u = some e →
      ¬(now - e.cachedAt < cacheTTL))
    (hcl : m.configLookup = some cl)
    (hcv : cl m.org u = cv) (hcv0 : ¬cv = "")
    (husable : (17 ≤ cv.length ∧ cv.length ≤ 20 ∧ isAllDigits cv) ∨
      (∃ dl, m.discordLookup = some dl ∧ dl cv ≠ "")) :
    (DiscordID m u now).1 =
      (if 17 ≤ cv.length ∧ cv.length ≤ 20 ∧ isAllDigits cv then cv
      else
        match m.discordLookup with
        | some dl => dl cv
        | none => "") := by
  have tiers : (discordIDTiers m u now).1 =
      (if 17 ≤ cv.length ∧ cv.length ≤ 20 ∧ isAllDigits cv then cv
      else
        match m.discordLookup with
        | some dl => dl cv
        | none => "") := by
    unfold discordIDTiers
    rw [hcl]
    simp only [hcv]
    rw [if_neg hcv0]
    by_cases hnum : 17 ≤ cv.length ∧ cv.length ≤ 20 ∧ isAllDigits cv
    · rw [if_pos hnum, if_pos hnum]
    · rw [if_neg hnum, if_neg hnum]
      rcases husable with hus | ⟨dl, hdl, hdlcv⟩
      · exact absurd hus hnum
      · rw [hdl]
        simp only []
        rw [if_pos hdlcv]
  unfold DiscordID
  rcases hc : lookupA m.cache u with _ | e
  · exact tiers
  · simp only []
    rw [if_neg (hcache e hc)]
    exact tiers

/-- C9 (amended) witness: a numeric 18-digit configured id is returned
directly even though the directory would resolve the source username to a
different id. -/
theorem c9_config_tier_wins_witness :
    (DiscordID
      { configLookup := some fun _ u =>
          if u = "carol" then "111111111111111111" else ""
        discordLookup := some fun v =>
          if v = "carol" then "999888777666555444" else ""
        store := none
        guildID := ""
        cache := []
        org := "o" } "carol" 0).1 = "111111111111111111" := by
  have h := c9_config_tier_wins
    { configLookup := some fun _ u =>
        if u = "carol" then "111111111111111111" else ""
      discordLookup := some fun v =>
        if v = "carol" then "999888777666555444" else ""
      store := none
      guildID := ""
      cache := []
      org := "o" } "carol" 0
    (fun _ u => if u = "carol" then "111111111111111111" else "")
    "111111111111111111" (fun e he => by simp [lookupA] at he) rfl
    (by decide) (by decide) (Or.inl (by decide))
  rw [h]
  rw [if_pos (by decide)]

end Discordian
